import Mathlib

/-!
Shallow embedding of the fetch-and-normalize core of `src/youtube.py`
(a YouTube channel/video/comment harvester).  Outbound API traffic is
modelled by an environment of canned responses (`ApiEnv`) plus an event
trace; each trace event records whether the call site routed the request
through the rate-limited wrapper `rate_limited_api_call` (the decorated
function of lines 54-57 of the source).  Machine-level concerns (HTTP,
JSON decoding) are abstracted into typed raw-item structures whose
optional fields model keys the remote API may omit.
-/

namespace YTF

/-- Model of `googleapiclient.errors.HttpError`. -/
structure HttpErr where
  code : Nat
  deriving DecidableEq, Repr

/-- The Python exceptions the core can raise or catch. -/
inductive PyErr where
  | http (e : HttpErr)
  | keyError (key : String)
  | valueError (msg : String)
  | validationError (msg : String)
  deriving DecidableEq, Repr

/-- Model of a Python `datetime`: the naive text body plus an optional
timezone offset in minutes (`none` = timezone-naive). -/
structure PyDatetime where
  body : List Char
  tzMinutes : Option Int
  deriving DecidableEq, Repr

/-- `UTC_Z = "+00:00"` (line 21 of the source). -/
def UTC_Z : String := "+00:00"

/-- Python's `s.replace("Z", UTC_Z)`: every occurrence of the
one-character pattern `Z` is replaced by `+00:00`. -/
def pyReplaceZ : List Char → List Char
  | [] => []
  | c :: cs => (if c = 'Z' then UTC_Z.data else [c]) ++ pyReplaceZ cs

/-- Reads a trailing `±HH:MM` offset (the form `datetime.fromisoformat`
accepts for an aware timestamp), returning the offset in minutes. -/
def offsetSuffix (s : List Char) : Option Int :=
  match s.drop (s.length - 6) with
  | [sgn, h1, h2, colon, m1, m2] =>
    if (sgn = '+' || sgn = '-') && colon = ':'
        && h1.isDigit && h2.isDigit && m1.isDigit && m2.isDigit then
      let mins : Int :=
        ((h1.toNat - 48) * 600 + (h2.toNat - 48) * 60
          + (m1.toNat - 48) * 10 + (m2.toNat - 48) : Nat)
      some (if sgn = '-' then -mins else mins)
    else none
  | _ => none

/-- Model of `datetime.fromisoformat`: an explicit trailing offset makes
the value timezone-aware, otherwise it is naive. -/
def fromisoformat (s : List Char) : PyDatetime :=
  match offsetSuffix s with
  | some off => ⟨s.take (s.length - 6), some off⟩
  | none => ⟨s, none⟩

/-- `datetime.fromisoformat(s.replace("Z", UTC_Z))`, the timestamp
normalization used at lines 230-232, 263-265, 280-282. -/
def parsePublishedAt (s : String) : PyDatetime :=
  fromisoformat (pyReplaceZ s.data)

/-- `d.replace(tzinfo=None)` (lines 334 and 339). -/
def stripTz (d : PyDatetime) : PyDatetime :=
  { d with tzMinutes := none }

/-- The flat video record built by `_parse_video_response` and validated
by the pydantic model `Video`. -/
structure VideoRec where
  video_id : String
  title : String
  description : String
  published_date : PyDatetime
  view_count : Int
  like_count : Int
  comment_count : Int
  duration : String
  thumbnail_url : String
  deriving DecidableEq, Repr

/-- The flat comment record built by `_parse_comment_response` and
validated by the pydantic model `Comment`. -/
structure CommentRec where
  video_id : String
  comment_id : String
  text : String
  author : String
  published_date : PyDatetime
  like_count : Int
  reply_to : Option String
  deriving DecidableEq, Repr

/-- `item["statistics"]`: the numeric counters, each possibly absent
from the payload (the API omits a counter when the metric is disabled). -/
structure RawStatistics where
  viewCount : Option Int
  likeCount : Option Int
  commentCount : Option Int
  deriving DecidableEq, Repr

/-- `item["snippet"]` of a video item; `description` may be absent
(the code supplies `""` via `.get`), the other keys are accessed by
direct indexing and are modelled as always present. -/
structure RawSnippet where
  title : String
  description : Option String
  publishedAt : String
  thumbnailHighUrl : String
  deriving DecidableEq, Repr

/-- One raw item of a `videos().list` response. -/
structure RawVideoItem where
  id : String
  snippet : RawSnippet
  statistics : RawStatistics
  duration : String
  deriving DecidableEq, Repr

/-- A comment snippet (top-level or reply).  `likeCount` is accessed by
direct indexing `int(comment["likeCount"])` in the source, so its
possible absence from the payload is modelled with `Option`. -/
structure RawCommentSnippet where
  textDisplay : String
  authorDisplayName : String
  publishedAt : String
  likeCount : Option Int
  deriving DecidableEq, Repr

/-- One reply inside `item["replies"]["comments"]`. -/
structure RawReply where
  id : String
  snippet : RawCommentSnippet
  deriving DecidableEq, Repr

/-- One raw item of a `commentThreads().list` response; `replies` is
`none` when the key `"replies"` is absent from the item. -/
structure RawThreadItem where
  id : String
  topLevelSnippet : RawCommentSnippet
  replies : Option (List RawReply)
  deriving DecidableEq, Repr

/-- One page of a `search().list` video query. -/
structure VideoPage where
  videoIds : List String
  nextPageToken : Option String
  deriving DecidableEq, Repr

/-- The four logical outbound operations of the core. -/
inductive ApiCall where
  | channelSearch (q : String)
  | videoSearch (channelId : String) (pageToken : Option String)
  | videoList (ids : List String)
  | commentThreads (videoId : String) (maxResults : Nat)
  deriving DecidableEq, Repr

/-- One outbound request; `rateLimited` records whether the call site
issued it through `rate_limited_api_call` (the call-counting path). -/
structure Event where
  call : ApiCall
  rateLimited : Bool
  deriving DecidableEq, Repr

/-- Canned remote responses: the behaviour of the YouTube Data API for
one run.  Each fetch either yields a decoded response or raises an
`HttpError`.  `isHttpUrl` models pydantic's `HttpUrl` format check. -/
structure ApiEnv where
  isHttpUrl : String → Bool
  searchChannel : String → Except HttpErr (List String)
  searchVideos : String → Option String → Except HttpErr VideoPage
  listVideos : List String → Except HttpErr (List RawVideoItem)
  listCommentThreads : String → Nat → Except HttpErr (List RawThreadItem)

/-- `YouTubeAPI._parse_video_response` (lines 216-238): absent numeric
statistics default to `0` via `.get(key, 0)`; absent `description`
defaults to `""`. -/
def parse_video_response (item : RawVideoItem) : VideoRec :=
  { video_id := item.id
    title := item.snippet.title
    description := item.snippet.description.getD ""
    published_date := parsePublishedAt item.snippet.publishedAt
    view_count := item.statistics.viewCount.getD 0
    like_count := item.statistics.likeCount.getD 0
    comment_count := item.statistics.commentCount.getD 0
    duration := item.duration
    thumbnail_url := item.snippet.thumbnailHighUrl }

/-- Builds one comment record from a snippet.  `int(comment["likeCount"])`
indexes the key directly, so an absent `likeCount` raises `KeyError`. -/
def parse_comment_entry (video_id comment_id : String)
    (reply_to : Option String) (c : RawCommentSnippet) :
    Except PyErr CommentRec :=
  match c.likeCount with
  | none => .error (.keyError "likeCount")
  | some lc =>
    .ok { video_id := video_id
          comment_id := comment_id
          text := c.textDisplay
          author := c.authorDisplayName
          published_date := parsePublishedAt c.publishedAt
          like_count := lc
          reply_to := reply_to }

/-- `YouTubeAPI._parse_comment_response` (lines 240-287): the top-level
comment first with `reply_to = None`, then each reply in API order with
`reply_to = item["id"]`. -/
def parse_comment_response (item : RawThreadItem) (video_id : String) :
    Except PyErr (List CommentRec) := do
  let top ← parse_comment_entry video_id item.id none item.topLevelSnippet
  let reps ←
    match item.replies with
    | none => pure ([] : List CommentRec)
    | some rs =>
      rs.mapM (fun r => parse_comment_entry video_id r.id (some item.id) r.snippet)
  pure (top :: reps)

/-- `YouTubeAPI.get_channel_id` (lines 79-98): one rate-limited channel
search; an empty `items` list raises `ValueError`, otherwise the first
item's channel id is returned. -/
def get_channel_id (env : ApiEnv) (handle : String) :
    Except PyErr String × List Event :=
  let ev : Event := ⟨.channelSearch handle, true⟩
  match env.searchChannel handle with
  | .error e => (.error (.http e), [ev])
  | .ok [] => (.error (.valueError ("No channel found: " ++ handle)), [ev])
  | .ok (cid :: _) => (.ok cid, [ev])

/-- The `while True` pagination loop of `YouTubeAPI.get_videos`
(lines 124-138), with explicit fuel; `none` models a run of the loop
that has not yet reached its exit after `fuel` iterations.  Each page
request goes through `rate_limited_api_call`; an `HttpError` is logged
and re-raised. -/
def getVideosLoop (env : ApiEnv) (channel_id : String) :
    Nat → Option String → List String → List Event →
    Option (Except PyErr (List String) × List Event)
  | 0, _, _, _ => none
  | fuel + 1, token, acc, tr =>
    match env.searchVideos channel_id token with
    | .error e =>
      some (.error (.http e), tr ++ [⟨.videoSearch channel_id token, true⟩])
    | .ok page =>
      match page.nextPageToken with
      | none =>
        some (.ok (acc ++ page.videoIds),
          tr ++ [⟨.videoSearch channel_id token, true⟩])
      | some t =>
        getVideosLoop env channel_id fuel (some t) (acc ++ page.videoIds)
          (tr ++ [⟨.videoSearch channel_id token, true⟩])

/-- `YouTubeAPI.get_videos` (lines 100-138). -/
def get_videos (env : ApiEnv) (channel_id : String) (fuel : Nat) :
    Option (Except PyErr (List String) × List Event) :=
  getVideosLoop env channel_id fuel none [] []

/-- Structural helper for `chunks50`: `fuel` bounds the number of loop
iterations; `fuel = xs.length` always suffices because each iteration
consumes at least one element. -/
def chunks50Fuel : Nat → List String → List (List String)
  | 0, _ => []
  | _, [] => []
  | fuel + 1, x :: xs => (x :: xs).take 50 :: chunks50Fuel fuel ((x :: xs).drop 50)

/-- The chunking of `for i in range(0, len(video_ids), 50)` with
`chunk = video_ids[i : i + 50]` (lines 163-164): consecutive slices of
at most 50 identifiers, none for an empty input. -/
def chunks50 (xs : List String) : List (List String) :=
  chunks50Fuel xs.length xs

/-- The per-chunk request loop of `get_video_details`: each chunk is sent
in one `videos().list` call issued directly (not through
`rate_limited_api_call`); a failure aborts the loop and propagates. -/
def detailsLoop (env : ApiEnv) :
    List (List String) → Except PyErr (List VideoRec) × List Event
  | [] => (.ok [], [])
  | c :: cs =>
    match env.listVideos c with
    | .error e => (.error (.http e), [⟨.videoList c, false⟩])
    | .ok items =>
      match detailsLoop env cs with
      | (.error e, tr) => (.error e, ⟨.videoList c, false⟩ :: tr)
      | (.ok rest, tr) =>
        (.ok (items.map parse_video_response ++ rest), ⟨.videoList c, false⟩ :: tr)

/-- `YouTubeAPI.get_video_details` (lines 140-174). -/
def get_video_details (env : ApiEnv) (video_ids : List String) :
    Except PyErr (List VideoRec) × List Event :=
  detailsLoop env (chunks50 video_ids)

/-- The accumulation loop of `get_comments` (lines 206-209): extend with
the parsed thread, then break as soon as the running total reaches
`max_comments`.  A `KeyError` from parsing propagates (only `HttpError`
is caught by the surrounding `try`). -/
def accumThreads (video_id : String) (max_comments : Nat)
    (acc : List CommentRec) :
    List RawThreadItem → Except PyErr (List CommentRec)
  | [] => .ok acc
  | item :: rest => do
    let cs ← parse_comment_response item video_id
    let acc' := acc ++ cs
    if max_comments ≤ acc'.length then .ok acc'
    else accumThreads video_id max_comments acc' rest

/-- The warning logged at line 212. -/
def commentWarning (video_id : String) (e : HttpErr) : String :=
  "Failed to fetch comments for " ++ video_id ++ ": " ++ toString e.code

/-- `YouTubeAPI.get_comments` (lines 176-214): one `commentThreads`
listing for `min(100, max_comments)` threads, issued directly (not
through `rate_limited_api_call`); an `HttpError` is caught, a warning
logged and the empty accumulator returned; finally
`comments[:max_comments]`.  Returns (result, events, warnings). -/
def get_comments (env : ApiEnv) (video_id : String) (max_comments : Nat) :
    Except PyErr (List CommentRec) × List Event × List String :=
  match env.listCommentThreads video_id (min 100 max_comments) with
  | .error e =>
    (.ok [], [⟨.commentThreads video_id (min 100 max_comments), false⟩],
      [commentWarning video_id e])
  | .ok items =>
    match accumThreads video_id max_comments [] items with
    | .error pe =>
      (.error pe, [⟨.commentThreads video_id (min 100 max_comments), false⟩], [])
    | .ok cs =>
      (.ok (cs.take max_comments),
        [⟨.commentThreads video_id (min 100 max_comments), false⟩], [])

/-- The per-video comment loop of `fetch_data` (lines 327-329):
`comments_raw.extend(self.api.get_comments(video_id, max_comments))`
for each enumerated video id in order. -/
def commentsLoop (env : ApiEnv) (max_comments : Nat) :
    List String → Except PyErr (List CommentRec) × List Event × List String
  | [] => (.ok [], [], [])
  | v :: vs =>
    match get_comments env v max_comments with
    | (.error pe, tr, ws) => (.error pe, tr, ws)
    | (.ok cs, tr, ws) =>
      match commentsLoop env max_comments vs with
      | (.error pe, tr', ws') => (.error pe, tr ++ tr', ws ++ ws')
      | (.ok rest, tr', ws') => (.ok (cs ++ rest), tr ++ tr', ws ++ ws')

/-- Construction of the pydantic `Video` model (lines 24-33): `video_id`
must have length exactly 11 and the three counters must be ≥ 0. -/
def validateVideo (v : VideoRec) : Except PyErr VideoRec :=
  if v.video_id.length = 11 ∧ 0 ≤ v.view_count ∧ 0 ≤ v.like_count
      ∧ 0 ≤ v.comment_count then .ok v
  else .error (.validationError "Video")

/-- Construction of the pydantic `Comment` model (lines 36-43). -/
def validateComment (c : CommentRec) : Except PyErr CommentRec :=
  if c.video_id.length = 11 ∧ 0 ≤ c.like_count then .ok c
  else .error (.validationError "Comment")

/-- Python's `s.split(sep)` for a one-character separator: splitting an
empty string yields `[[]]`, and every occurrence of the separator starts
a new group. -/
def pySplit (sep : Char) : List Char → List (List Char)
  | [] => [[]]
  | c :: cs =>
    match pySplit sep cs with
    | [] => [[]]
    | g :: gs => if c = sep then [] :: g :: gs else (c :: g) :: gs

/-- `channel_url.split("@")[-1]` (line 319): the handle is the last
group of the split, i.e. the substring after the last `@`. -/
def deriveHandle (url : String) : String :=
  String.mk ((pySplit '@' url.data).getLastD [])

/-- The outcome of one `fetch_data` run. -/
structure FetchResult where
  result : Except PyErr (List VideoRec × List CommentRec)
  trace : List Event
  warnings : List String

/-- `YouTubeDataFetcher.fetch_data` (lines 303-342): validate the channel
input, resolve the handle, enumerate video ids, fetch and validate video
details, fetch comments per video, validate comment records, then strip
the timezone from every `published_date` of both collections.  `none`
models a run whose pagination loop exceeded the fuel. -/
def fetch_data (env : ApiEnv) (fuel : Nat) (channel_url : String)
    (max_comments : Nat) : Option FetchResult :=
  if env.isHttpUrl channel_url = false ∨ (deriveHandle channel_url).length < 1 then
    some ⟨.error (.validationError "YouTubeChannelInput"), [], []⟩
  else
    match get_channel_id env (deriveHandle channel_url) with
    | (.error e, tr1) => some ⟨.error e, tr1, []⟩
    | (.ok channel_id, tr1) =>
      match get_videos env channel_id fuel with
      | none => none
      | some (.error e, tr2) => some ⟨.error e, tr1 ++ tr2, []⟩
      | some (.ok video_ids, tr2) =>
        match get_video_details env video_ids with
        | (.error e, tr3) => some ⟨.error e, tr1 ++ tr2 ++ tr3, []⟩
        | (.ok videos_raw, tr3) =>
          match videos_raw.mapM validateVideo with
          | .error e => some ⟨.error e, tr1 ++ tr2 ++ tr3, []⟩
          | .ok videos =>
            match commentsLoop env max_comments video_ids with
            | (.error e, tr4, ws) => some ⟨.error e, tr1 ++ tr2 ++ tr3 ++ tr4, ws⟩
            | (.ok comments_raw, tr4, ws) =>
              match comments_raw.mapM validateComment with
              | .error e => some ⟨.error e, tr1 ++ tr2 ++ tr3 ++ tr4, ws⟩
              | .ok comments0 =>
                some ⟨.ok
                  (videos.map
                    (fun v => { v with published_date := stripTz v.published_date }),
                   comments0.map
                    (fun c => { c with published_date := stripTz c.published_date })),
                  tr1 ++ tr2 ++ tr3 ++ tr4, ws⟩

/-! Concrete objects used by scenario theorems and witnesses. -/

/-- A comment snippet by author `a`, with one like. -/
def snipE (a : String) : RawCommentSnippet :=
  ⟨"text by " ++ a, a, "2024-01-01T00:00:00Z", some 1⟩

/-- A thread with one top-level comment and three replies (Scenario E). -/
def threadE : RawThreadItem :=
  ⟨"ct1", snipE "alice",
   some [⟨"r1", snipE "bob"⟩, ⟨"r2", snipE "carol"⟩, ⟨"r3", snipE "dave"⟩]⟩

/-- One well-formed raw video item (11-character id). -/
def rawVidOK : RawVideoItem :=
  ⟨"abcdefghijk",
   ⟨"Title", some "desc", "2024-01-02T03:04:05Z", "http://img/hq.jpg"⟩,
   ⟨some 10, some 2, some 1⟩, "PT1M"⟩

/-- An environment where every remote operation succeeds. -/
def envOK : ApiEnv :=
  { isHttpUrl := fun _ => true
    searchChannel := fun _ => .ok ["UCchannel01"]
    searchVideos := fun _ _ => .ok ⟨["abcdefghijk"], none⟩
    listVideos := fun _ => .ok [rawVidOK]
    listCommentThreads := fun _ _ => .ok [threadE] }

/-- An environment whose comment-thread listing always raises. -/
def envFail : ApiEnv :=
  { envOK with listCommentThreads := fun _ _ => .error ⟨403⟩ }

/-- A video item whose `statistics.likeCount` key is absent. -/
def vidNoLike : RawVideoItem :=
  ⟨"abcdefghijk", ⟨"T", none, "2024-01-02T03:04:05Z", "u"⟩,
   ⟨some 7, none, some 3⟩, "PT1M"⟩

/-- A comment snippet whose `likeCount` key is absent. -/
def snipNoLike : RawCommentSnippet :=
  ⟨"text", "alice", "2024-01-01T00:00:00Z", none⟩

/-- A thread whose top-level comment snippet lacks `likeCount`. -/
def threadNoLike : RawThreadItem := ⟨"ct9", snipNoLike, none⟩

/-! Trace-shape lemmas: which call sites route through
`rate_limited_api_call`. -/

/-- `get_channel_id` issues exactly one rate-limited channel search. -/
theorem get_channel_id_trace (env : ApiEnv) (handle : String) :
    (get_channel_id env handle).2 = [⟨.channelSearch handle, true⟩] := by
  unfold get_channel_id
  split <;> rfl

/-- `get_comments` issues exactly one comment-thread listing, outside the
rate-limited path. -/
theorem get_comments_trace (env : ApiEnv) (vid : String) (maxc : Nat) :
    (get_comments env vid maxc).2.1 =
      [⟨.commentThreads vid (min 100 maxc), false⟩] := by
  unfold get_comments
  split
  · rfl
  · split <;> rfl

/-- Every event of the pagination loop is rate-limited. -/
theorem getVideosLoop_rateLimited (env : ApiEnv) (cid : String) :
    ∀ (fuel : Nat) (t : Option String) (acc : List String) (tr : List Event)
      (r : Except PyErr (List String)) (trOut : List Event),
      (∀ e ∈ tr, e.rateLimited = true) →
      getVideosLoop env cid fuel t acc tr = some (r, trOut) →
      ∀ e ∈ trOut, e.rateLimited = true := by
  intro fuel
  induction fuel with
  | zero =>
    intro t acc tr r trOut _ h
    exact absurd h (by simp [getVideosLoop])
  | succ n ih =>
    intro t acc tr r trOut htr h
    have htr' : ∀ e ∈ tr ++ [(⟨.videoSearch cid t, true⟩ : Event)],
        e.rateLimited = true := by
      intro e he
      rcases List.mem_append.mp he with h1 | h1
      · exact htr e h1
      · rw [List.mem_singleton.mp h1]
    rcases hx : env.searchVideos cid t with er | page
    · simp only [getVideosLoop, hx, Option.some.injEq, Prod.mk.injEq] at h
      rw [← h.2]
      exact htr'
    · rcases hp : page.nextPageToken with _ | t'
      · simp only [getVideosLoop, hx, hp, Option.some.injEq, Prod.mk.injEq] at h
        rw [← h.2]
        exact htr'
      · simp only [getVideosLoop, hx, hp] at h
        exact ih _ _ _ _ _ htr' h

/-- No event of the detail-batch loop is rate-limited. -/
theorem detailsLoop_not_rateLimited (env : ApiEnv) :
    ∀ (cs : List (List String)) (e : Event),
      e ∈ (detailsLoop env cs).2 → e.rateLimited = false := by
  intro cs
  induction cs with
  | nil => intro e he; simp [detailsLoop] at he
  | cons c cs ih =>
    intro e he
    rcases hx : env.listVideos c with er | items
    · simp only [detailsLoop, hx] at he
      rw [List.mem_singleton.mp he]
    · rcases hd : detailsLoop env cs with ⟨r, tr⟩
      have htr : ∀ e ∈ tr, e.rateLimited = false := by
        intro e he'
        exact ih e (by rw [hd]; exact he')
      rcases r with er2 | ok
      · simp only [detailsLoop, hx, hd] at he
        rcases List.mem_cons.mp he with h1 | h1
        · rw [h1]
        · exact htr e h1
      · simp only [detailsLoop, hx, hd] at he
        rcases List.mem_cons.mp he with h1 | h1
        · rw [h1]
        · exact htr e h1

/-- C1, counterexample: at a concrete environment the single
comment-thread listing event of `get_comments` is NOT rate-limited
(`commentThreads().list(...).execute()` at lines 196-204 is called
outside `rate_limited_api_call`), refuting the claim that it passes
through the call-counting path. -/
theorem claim_C1_counterexample :
    ((get_comments envOK "vidvidvid01" 5).2.1).map Event.rateLimited = [false] := rfl

/-- C1, amended: the channel search and every video-page search pass
through the rate limiter's call-counting path, while the video-details
and comment-thread listing requests are issued directly, outside it. -/
theorem claim_C1_amended :
    (∀ (env : ApiEnv) (handle : String) (e : Event),
        e ∈ (get_channel_id env handle).2 → e.rateLimited = true)
    ∧ (∀ (env : ApiEnv) (cid : String) (fuel : Nat)
        (r : Except PyErr (List String)) (tr : List Event),
        get_videos env cid fuel = some (r, tr) →
        ∀ e ∈ tr, e.rateLimited = true)
    ∧ (∀ (env : ApiEnv) (ids : List String) (e : Event),
        e ∈ (get_video_details env ids).2 → e.rateLimited = false)
    ∧ (∀ (env : ApiEnv) (vid : String) (maxc : Nat) (e : Event),
        e ∈ (get_comments env vid maxc).2.1 → e.rateLimited = false) := by
  refine ⟨?_, ?_, ?_, ?_⟩
  · intro env handle e he
    rw [get_channel_id_trace] at he
    rw [List.mem_singleton.mp he]
  · intro env cid fuel r tr h
    exact getVideosLoop_rateLimited env cid fuel none [] [] r tr (by simp) h
  · intro env ids e he
    exact detailsLoop_not_rateLimited env _ e he
  · intro env vid maxc e he
    rw [get_comments_trace] at he
    rw [List.mem_singleton.mp he]

/-- Witness for C1 amended: concrete rate-limited channel-search event
and concrete non-rate-limited comment-thread event. -/
theorem claim_C1_amended_witness :
    (Event.mk (.channelSearch "handle") true).rateLimited = true
    ∧ (Event.mk (.commentThreads "vidvidvid01" 5) false).rateLimited = false :=
  ⟨claim_C1_amended.1 envOK "handle" _ (by decide),
   claim_C1_amended.2.2.2 envOK "vidvidvid01" 5 _ (by decide)⟩

/-- C2: `get_comments` never returns more than `max_comments` records
(the final `comments[:max_comments]` slice at line 214), and in
Scenario E (`max_comments = 2`, first thread = 1 top-level + 3 replies)
exactly the top-level comment and the first reply are returned,
truncating the reply list mid-thread. -/
theorem claim_C2 :
    (∀ (env : ApiEnv) (vid : String) (maxc : Nat) (cs : List CommentRec),
        0 < maxc → (get_comments env vid maxc).1 = .ok cs →
        cs.length ≤ maxc)
    ∧ (get_comments envOK "vidvidvid01" 2).1.map
        (fun cs => (cs.length, cs.map CommentRec.comment_id)) =
        .ok (2, ["ct1", "r1"]) := by
  constructor
  · intro env vid maxc cs _ h
    rcases hx : env.listCommentThreads vid (min 100 maxc) with er | items
    · simp only [get_comments, hx, Except.ok.injEq] at h
      rw [← h]
      exact Nat.zero_le maxc
    · rcases ha : accumThreads vid maxc [] items with pe | l
      · simp only [get_comments, hx, ha] at h
        exact Except.noConfusion h
      · simp only [get_comments, hx, ha, Except.ok.injEq] at h
        rw [← h]
        exact List.length_take_le maxc l
  · rfl

/-- The comment list actually returned in Scenario E. -/
def csE : List CommentRec :=
  match (get_comments envOK "vidvidvid01" 2).1 with
  | .ok l => l
  | .error _ => []

/-- Witness for C2 at Scenario E's concrete input. -/
theorem claim_C2_witness : csE.length ≤ 2 :=
  claim_C2.1 envOK "vidvidvid01" 2 csE (by decide) rfl

/-- C3, counterexample: a comment payload whose `likeCount` key is
absent does not normalize with `like_count = 0`; the direct index
`int(comment["likeCount"])` (line 266) raises `KeyError`, so the
zero-default rule does not extend to comment payloads. -/
theorem claim_C3_counterexample :
    threadNoLike.topLevelSnippet.likeCount = none
    ∧ parse_comment_response threadNoLike "vidvidvid01" =
        .error (.keyError "likeCount") :=
  ⟨rfl, rfl⟩

/-- C3, amended: for video items each absent numeric statistics field
defaults to zero via `.get(key, 0)` (lines 233-235); for comment
payloads there is no default: an absent `likeCount` raises `KeyError`. -/
theorem claim_C3_amended (item : RawVideoItem) (c : RawThreadItem)
    (vid : String) :
    (item.statistics.viewCount = none →
      (parse_video_response item).view_count = 0)
    ∧ (item.statistics.likeCount = none →
      (parse_video_response item).like_count = 0)
    ∧ (item.statistics.commentCount = none →
      (parse_video_response item).comment_count = 0)
    ∧ (c.topLevelSnippet.likeCount = none →
      parse_comment_response c vid = .error (.keyError "likeCount")) := by
  refine ⟨?_, ?_, ?_, ?_⟩
  · intro h; simp [parse_video_response, h]
  · intro h; simp [parse_video_response, h]
  · intro h; simp [parse_video_response, h]
  · intro h
    unfold parse_comment_response parse_comment_entry
    rw [h]
    rfl

/-- Witness for C3 amended at concrete payloads with absent keys. -/
theorem claim_C3_amended_witness :
    (parse_video_response vidNoLike).like_count = 0
    ∧ parse_comment_response threadNoLike "vidvidvid01" =
        .error (.keyError "likeCount") :=
  ⟨(claim_C3_amended vidNoLike threadNoLike "vidvidvid01").2.1 rfl,
   (claim_C3_amended vidNoLike threadNoLike "vidvidvid01").2.2.2 rfl⟩

/-- C4: an `HttpError` on the comment-thread listing is caught inside
`get_comments` (lines 211-212): the result is the empty list, the
warning is logged, and the assembler's per-video loop over the remaining
videos computes the same records as if the failing video were skipped. -/
theorem claim_C4 (env : ApiEnv) (vid : String) (maxc : Nat) (er : HttpErr)
    (hfail : env.listCommentThreads vid (min 100 maxc) = .error er) :
    (get_comments env vid maxc).1 = .ok []
    ∧ (get_comments env vid maxc).2.2 = [commentWarning vid er]
    ∧ ∀ (pre post : List String),
        (commentsLoop env maxc (pre ++ vid :: post)).1 =
          (commentsLoop env maxc (pre ++ post)).1 := by
  have hg : get_comments env vid maxc =
      (.ok [], [⟨.commentThreads vid (min 100 maxc), false⟩],
        [commentWarning vid er]) := by
    simp only [get_comments, hfail]
  refine ⟨by rw [hg], by rw [hg], ?_⟩
  intro pre post
  induction pre with
  | nil =>
    rcases h2 : commentsLoop env maxc post with ⟨r, tr, ws⟩
    rcases r with pe | rest <;> simp [commentsLoop, hg, h2]
  | cons v vs ih =>
    rcases hv : get_comments env v maxc with ⟨rv, trv, wsv⟩
    rcases rv with pe | cs0
    · simp [commentsLoop, hv]
    · rcases hL : commentsLoop env maxc (vs ++ vid :: post) with ⟨r1, tr1, ws1⟩
      rcases hR : commentsLoop env maxc (vs ++ post) with ⟨r2, tr2, ws2⟩
      have h12 : r1 = r2 := by
        have h' := ih
        rw [hL, hR] at h'
        exact h'
      subst h12
      rcases r1 with pe | rest <;> simp [commentsLoop, hv, hL, hR]

/-- Witness for C4: a concrete environment whose comment listing always
fails with `HttpError 403`. -/
theorem claim_C4_witness :
    (get_comments envFail "vidvidvid01" 3).1 = .ok []
    ∧ (commentsLoop envFail 3 (["a"] ++ "vidvidvid01" :: ["b"])).1 =
        (commentsLoop envFail 3 (["a"] ++ ["b"])).1 :=
  ⟨(claim_C4 envFail "vidvidvid01" 3 ⟨403⟩ rfl).1,
   (claim_C4 envFail "vidvidvid01" 3 ⟨403⟩ rfl).2.2 ["a"] ["b"]⟩

/-- A complete token chain: following continuation tokens from `t`,
every page request succeeds, each page except the last carries a
next-page token, and the last page carries none. -/
inductive Chain (env : ApiEnv) (cid : String) :
    Option String → List VideoPage → Prop
  | last (t : Option String) (p : VideoPage) :
      env.searchVideos cid t = .ok p → p.nextPageToken = none →
      Chain env cid t [p]
  | cons (t : Option String) (p : VideoPage) (t' : String)
      (ps : List VideoPage) :
      env.searchVideos cid t = .ok p → p.nextPageToken = some t' →
      Chain env cid (some t') ps → Chain env cid t (p :: ps)

/-- A partial token chain from `t` whose listed pages all succeed and
all carry continuation tokens, ending at the still-unfetched token
`tEnd`. -/
inductive ChainTo (env : ApiEnv) (cid : String) :
    Option String → List VideoPage → Option String → Prop
  | nil (t : Option String) : ChainTo env cid t [] t
  | cons (t : Option String) (p : VideoPage) (t' : String)
      (ps : List VideoPage) (tEnd : Option String) :
      env.searchVideos cid t = .ok p → p.nextPageToken = some t' →
      ChainTo env cid (some t') ps tEnd → ChainTo env cid t (p :: ps) tEnd

/-- Along a complete chain the pagination loop returns the concatenation
of all pages' identifiers and issues one request per page. -/
theorem getVideosLoop_chain (env : ApiEnv) (cid : String)
    (ps : List VideoPage) (t : Option String)
    (hc : Chain env cid t ps) :
    ∀ (fuel : Nat) (acc : List String) (tr : List Event),
      ps.length ≤ fuel →
      (getVideosLoop env cid fuel t acc tr).map
          (fun out => (out.1, out.2.length))
        = some (.ok (acc ++ (ps.map VideoPage.videoIds).flatten),
            tr.length + ps.length) := by
  induction hc with
  | last t p hok hnone =>
    intro fuel acc tr hlen
    rcases fuel with _ | n
    · simp at hlen
    · simp [getVideosLoop, hok, hnone]
  | cons t p t' ps hok hsome hch ih =>
    intro fuel acc tr hlen
    rcases fuel with _ | n
    · simp at hlen
    · have h' := ih n (acc ++ p.videoIds)
        (tr ++ [⟨.videoSearch cid t, true⟩])
        (by simp only [List.length_cons] at hlen; omega)
      simp only [getVideosLoop, hok, hsome]
      rw [h']
      simp [List.append_assoc, List.length_append]
      omega

/-- Along a partial chain ending at a token whose request fails, the
pagination loop propagates the error after exactly one request per
successful page plus the failing one. -/
theorem getVideosLoop_abort (env : ApiEnv) (cid : String)
    (ps : List VideoPage) (t tEnd : Option String)
    (hc : ChainTo env cid t ps tEnd) :
    ∀ (er : HttpErr), env.searchVideos cid tEnd = .error er →
    ∀ (fuel : Nat) (acc : List String) (tr : List Event),
      ps.length < fuel →
      (getVideosLoop env cid fuel t acc tr).map
          (fun out => (out.1, out.2.length))
        = some (.error (.http er), tr.length + ps.length + 1) := by
  induction hc with
  | nil t =>
    intro er herr fuel acc tr hlen
    rcases fuel with _ | n
    · simp at hlen
    · simp [getVideosLoop, herr]
  | cons t p t' ps tEnd hok hsome hch ih =>
    intro er herr fuel acc tr hlen
    rcases fuel with _ | n
    · simp at hlen
    · have h' := ih er herr n (acc ++ p.videoIds)
        (tr ++ [⟨.videoSearch cid t, true⟩])
        (by simp only [List.length_cons] at hlen; omega)
      simp only [getVideosLoop, hok, hsome]
      rw [h']
      simp [List.length_append]
      omega

/-- C5: when a page request of the enumeration fails with an
`HttpError`, `get_videos` propagates the error (the `except ... raise`
of lines 134-136): the result is the error, not any partial identifier
list, and exactly one request per chain page plus the failing request
was issued — no retry. -/
theorem claim_C5 (env : ApiEnv) (cid : String) (ps : List VideoPage)
    (tEnd : Option String) (er : HttpErr) (fuel : Nat)
    (hc : ChainTo env cid none ps tEnd)
    (herr : env.searchVideos cid tEnd = .error er)
    (hfuel : ps.length < fuel) :
    (get_videos env cid fuel).map (fun out => (out.1, out.2.length))
      = some (.error (.http er), ps.length + 1) := by
  have h := getVideosLoop_abort env cid ps none tEnd hc er herr fuel [] [] hfuel

  simpa [get_videos] using h

/-- C6: when every page of the chain reports a continuation token except
the last, `get_videos` terminates and returns the concatenation of all
pages' identifiers in page order, one request per page. -/
theorem claim_C6 (env : ApiEnv) (cid : String) (ps : List VideoPage)
    (fuel : Nat) (hc : Chain env cid none ps) (hfuel : ps.length ≤ fuel) :
    (get_videos env cid fuel).map (fun out => (out.1, out.2.length))
      = some (.ok ((ps.map VideoPage.videoIds).flatten), ps.length) := by
  have h := getVideosLoop_chain env cid ps none hc fuel [] [] hfuel
  simpa [get_videos] using h

/-- 50 identifiers for page one of Scenario D. -/
def ids50 : List String := (List.range 50).map (fun i => "v" ++ toString i)

/-- 30 identifiers for page two of Scenario D. -/
def ids30 : List String := (List.range 30).map (fun i => "w" ++ toString i)

/-- Scenario D's first page: 50 ids and a continuation token. -/
def pageA : VideoPage := ⟨ids50, some "tok2"⟩

/-- Scenario D's second page: 30 ids and no continuation token. -/
def pageB : VideoPage := ⟨ids30, none⟩

/-- Environment serving Scenario D's two pages. -/
def envPages : ApiEnv :=
  { envOK with
    searchVideos := fun _ t =>
      match t with
      | none => .ok pageA
      | some s => if s = "tok2" then .ok pageB else .error ⟨404⟩ }

/-- Environment whose second page request fails with `HttpError 500`. -/
def envAbort : ApiEnv :=
  { envOK with
    searchVideos := fun _ t =>
      match t with
      | none => .ok pageA
      | some s => if s = "tok2" then .error ⟨500⟩ else .error ⟨404⟩ }

/-- Witness for C5: one good page, then a failing request; the error
propagates after exactly 2 requests and no ids are returned. -/
theorem claim_C5_witness :
    (get_videos envAbort "UCchannel01" 5).map
        (fun out => (out.1, out.2.length))
      = some (.error (.http ⟨500⟩), 2) :=
  claim_C5 envAbort "UCchannel01" [pageA] (some "tok2") ⟨500⟩ 5
    (ChainTo.cons none pageA "tok2" [] (some "tok2") rfl rfl
      (ChainTo.nil (some "tok2")))
    rfl (by simp)

/-- Witness for C6 at Scenario D: 50 + 30 ids over two pages yield
exactly the 80 identifiers in page order. -/
theorem claim_C6_witness :
    (get_videos envPages "UCchannel01" 2).map
        (fun out => (out.1, out.2.length))
      = some (.ok (([pageA, pageB].map VideoPage.videoIds).flatten), 2)
    ∧ ([pageA, pageB].map VideoPage.videoIds).flatten = ids50 ++ ids30
    ∧ (([pageA, pageB].map VideoPage.videoIds).flatten).length = 80 :=
  ⟨claim_C6 envPages "UCchannel01" [pageA, pageB] 2
      (Chain.cons none pageA "tok2" [pageB] rfl rfl
        (Chain.last (some "tok2") pageB rfl rfl))
      (by simp),
   by simp [pageA, pageB],
   by simp [pageA, pageB, ids50, ids30]⟩

/-- Concatenating the chunks gives back the input (consecutive slices). -/
theorem chunks50Fuel_flatten :
    ∀ (fuel : Nat) (xs : List String), xs.length ≤ fuel →
      (chunks50Fuel fuel xs).flatten = xs := by
  intro fuel
  induction fuel with
  | zero =>
    intro xs h
    have hx : xs = [] := List.length_eq_zero.mp (Nat.le_zero.mp h)
    subst hx
    rfl
  | succ n ih =>
    intro xs h
    rcases xs with _ | ⟨x, xs⟩
    · rfl
    · simp only [chunks50Fuel, List.flatten_cons]
      rw [ih ((x :: xs).drop 50)
        (by simp only [List.length_drop, List.length_cons] at h ⊢; omega)]
      exact List.take_append_drop 50 (x :: xs)

/-- The loop makes exactly `⌈length / 50⌉` chunks. -/
theorem chunks50Fuel_count :
    ∀ (fuel : Nat) (xs : List String), xs.length ≤ fuel →
      (chunks50Fuel fuel xs).length = (xs.length + 49) / 50 := by
  intro fuel
  induction fuel with
  | zero =>
    intro xs h
    have hx : xs = [] := List.length_eq_zero.mp (Nat.le_zero.mp h)
    subst hx
    rfl
  | succ n ih =>
    intro xs h
    rcases xs with _ | ⟨x, xs⟩
    · rfl
    · simp only [chunks50Fuel, List.length_cons]
      rw [ih ((x :: xs).drop 50)
        (by simp only [List.length_drop, List.length_cons] at h ⊢; omega)]
      simp only [List.length_drop, List.length_cons]
      omega

/-- Every chunk holds at most 50 identifiers. -/
theorem chunks50Fuel_mem :
    ∀ (fuel : Nat) (xs c : List String), c ∈ chunks50Fuel fuel xs →
      c.length ≤ 50 := by
  intro fuel
  induction fuel with
  | zero => intro xs c hc; simp [chunks50Fuel] at hc
  | succ n ih =>
    intro xs c hc
    rcases xs with _ | ⟨x, xs⟩
    · simp [chunks50Fuel] at hc
    · simp only [chunks50Fuel] at hc
      rcases List.mem_cons.mp hc with h1 | h1
      · rw [h1]
        exact List.length_take_le 50 (x :: xs)
      · exact ih _ c h1

/-- `chunks50` reassembles to the input. -/
theorem chunks50_flatten (xs : List String) : (chunks50 xs).flatten = xs :=
  chunks50Fuel_flatten xs.length xs le_rfl

/-- `chunks50` makes `⌈N / 50⌉` chunks. -/
theorem chunks50_count (xs : List String) :
    (chunks50 xs).length = (xs.length + 49) / 50 :=
  chunks50Fuel_count xs.length xs le_rfl

/-- `chunks50` chunks hold at most 50 identifiers. -/
theorem chunks50_mem (xs c : List String) (h : c ∈ chunks50 xs) :
    c.length ≤ 50 :=
  chunks50Fuel_mem xs.length xs c h

/-- The decoded items of one detail response (empty on an error, a case
ruled out by the hypotheses that use it). -/
def okItems (r : Except HttpErr (List RawVideoItem)) : List RawVideoItem :=
  match r with
  | .ok l => l
  | .error _ => []

/-- When every chunk's request succeeds, the detail loop issues exactly
one direct request per chunk and concatenates the per-chunk parses in
chunk order. -/
theorem detailsLoop_ok (env : ApiEnv) :
    ∀ (cs : List (List String)),
      (∀ c ∈ cs, ∃ items, env.listVideos c = .ok items) →
      detailsLoop env cs =
        (.ok ((cs.map (fun c =>
            (okItems (env.listVideos c)).map parse_video_response)).flatten),
         cs.map (fun c => (⟨.videoList c, false⟩ : Event))) := by
  intro cs
  induction cs with
  | nil => intro _; rfl
  | cons c cs ih =>
    intro hok
    obtain ⟨items, hx⟩ := hok c (List.mem_cons_self c cs)
    have h' := ih (fun c' hc' => hok c' (List.mem_cons_of_mem _ hc'))
    simp only [detailsLoop, hx, h', List.map_cons, List.flatten_cons]
    simp [okItems, hx]

/-- C7: `get_video_details` partitions the input into consecutive chunks
of at most 50 identifiers (`video_ids[i : i + 50]`), issues exactly
`⌈N / 50⌉` details requests — one per chunk, never naming more than 50
identifiers — and returns the per-chunk parses concatenated in chunk
order. -/
theorem claim_C7 (env : ApiEnv) (ids : List String)
    (hok : ∀ c ∈ chunks50 ids, ∃ items, env.listVideos c = .ok items) :
    (get_video_details env ids).2 =
        (chunks50 ids).map (fun c => (⟨.videoList c, false⟩ : Event))
    ∧ (get_video_details env ids).2.length = (ids.length + 49) / 50
    ∧ (∀ c ∈ chunks50 ids, c.length ≤ 50)
    ∧ (chunks50 ids).flatten = ids
    ∧ (get_video_details env ids).1 =
        .ok ((chunks50 ids).map (fun c =>
          (okItems (env.listVideos c)).map parse_video_response)).flatten := by
  have hd := detailsLoop_ok env (chunks50 ids) hok
  refine ⟨?_, ?_, fun c hc => chunks50_mem ids c hc, chunks50_flatten ids, ?_⟩
  · simp only [get_video_details, hd]
  · simp only [get_video_details, hd, List.length_map]
    exact chunks50_count ids
  · simp only [get_video_details, hd]

/-- 120 identifiers, to exercise the chunking. -/
def ids120 : List String := (List.range 120).map (fun i => "x" ++ toString i)

/-- Witness for C7: 120 identifiers are fetched in exactly 3 requests. -/
theorem claim_C7_witness :
    (get_video_details envOK ids120).2.length = (ids120.length + 49) / 50
    ∧ (ids120.length + 49) / 50 = 3 :=
  ⟨(claim_C7 envOK ids120 (fun _ _ => ⟨[rawVidOK], rfl⟩)).2.1,
   by simp [ids120]⟩

/-- The record `_parse_comment_response` builds for the top-level
comment of a thread (lines 257-269): `comment_id` is the thread's id,
`reply_to` is null. -/
def topRec (vid : String) (item : RawThreadItem) : CommentRec :=
  { video_id := vid
    comment_id := item.id
    text := item.topLevelSnippet.textDisplay
    author := item.topLevelSnippet.authorDisplayName
    published_date := parsePublishedAt item.topLevelSnippet.publishedAt
    like_count := item.topLevelSnippet.likeCount.getD 0
    reply_to := none }

/-- The record `_parse_comment_response` builds for one reply
(lines 271-286): `reply_to` is the thread's id. -/
def replyRec (vid parent : String) (r : RawReply) : CommentRec :=
  { video_id := vid
    comment_id := r.id
    text := r.snippet.textDisplay
    author := r.snippet.authorDisplayName
    published_date := parsePublishedAt r.snippet.publishedAt
    like_count := r.snippet.likeCount.getD 0
    reply_to := some parent }

/-- When every reply snippet carries its `likeCount`, mapping the entry
parser over the replies succeeds and yields one record per reply in API
order. -/
theorem mapM_parse_replies (vid parent : String) :
    ∀ (rs : List RawReply), (∀ r ∈ rs, r.snippet.likeCount ≠ none) →
      rs.mapM (fun r => parse_comment_entry vid r.id (some parent) r.snippet)
        = .ok (rs.map (replyRec vid parent)) := by
  intro rs
  induction rs with
  | nil => intro _; rfl
  | cons r rs ih =>
    intro h
    have hr := h r (List.mem_cons_self r rs)
    rcases hlc : r.snippet.likeCount with _ | lc
    · exact absurd hlc hr
    · rw [List.mapM_cons, ih (fun x hx => h x (List.mem_cons_of_mem _ hx))]
      simp only [parse_comment_entry, hlc, List.map_cons, replyRec,
        Option.getD_some]
      rfl

/-- C8: a thread item with a top-level comment and `k` replies
normalizes to exactly `1 + k` records: first the top-level comment with
`reply_to = null` and `comment_id = item["id"]`, then each reply in API
order with `reply_to = item["id"]`; hence every reply's `reply_to`
references the `comment_id` of a top-level comment of the same parse. -/
theorem claim_C8 (item : RawThreadItem) (vid : String) (rs : List RawReply)
    (hr : item.replies = some rs)
    (htop : item.topLevelSnippet.likeCount ≠ none)
    (hreps : ∀ r ∈ rs, r.snippet.likeCount ≠ none) :
    parse_comment_response item vid =
        .ok (topRec vid item :: rs.map (replyRec vid item.id))
    ∧ (topRec vid item :: rs.map (replyRec vid item.id)).length = 1 + rs.length
    ∧ (topRec vid item).reply_to = none
    ∧ (topRec vid item).comment_id = item.id
    ∧ (rs.map (replyRec vid item.id)).map CommentRec.reply_to
        = rs.map (fun _ => some item.id)
    ∧ (rs.map (replyRec vid item.id)).map CommentRec.comment_id
        = rs.map RawReply.id
    ∧ ∀ c ∈ topRec vid item :: rs.map (replyRec vid item.id),
        c.reply_to = none ∨ c.reply_to = some (topRec vid item).comment_id := by
  refine ⟨?_, by simp; omega, rfl, rfl,
    by simp [replyRec, Function.comp_def],
    by simp [replyRec, Function.comp_def], ?_⟩
  · rcases hlc : item.topLevelSnippet.likeCount with _ | lc
    · exact absurd hlc htop
    · have hm := mapM_parse_replies vid item.id rs hreps
      simp only [parse_comment_response, hr]
      rw [hm]
      simp only [parse_comment_entry, hlc, topRec, Option.getD_some]
      rfl
  · intro c hc
    rcases List.mem_cons.mp hc with h1 | h1
    · left
      rw [h1]
      rfl
    · right
      obtain ⟨r, _, rfl⟩ := List.mem_map.mp h1
      rfl

/-- Witness for C8 at Scenario C/E's thread (1 top-level + 3 replies). -/
theorem claim_C8_witness :
    parse_comment_response threadE "vidvidvid01" =
      .ok (topRec "vidvidvid01" threadE ::
        [(⟨"r1", snipE "bob"⟩ : RawReply), ⟨"r2", snipE "carol"⟩,
          ⟨"r3", snipE "dave"⟩].map (replyRec "vidvidvid01" threadE.id)) :=
  (claim_C8 threadE "vidvidvid01"
    [⟨"r1", snipE "bob"⟩, ⟨"r2", snipE "carol"⟩, ⟨"r3", snipE "dave"⟩]
    rfl (by decide) (by decide)).1

/-- `replace` distributes over concatenation. -/
theorem pyReplaceZ_append (a b : List Char) :
    pyReplaceZ (a ++ b) = pyReplaceZ a ++ pyReplaceZ b := by
  induction a with
  | nil => rfl
  | cons c cs ih => simp [pyReplaceZ, ih]

/-- `replace` leaves a `Z`-free string unchanged. -/
theorem pyReplaceZ_id (a : List Char) (h : 'Z' ∉ a) : pyReplaceZ a = a := by
  induction a with
  | nil => rfl
  | cons c cs ih =>
    have hc : ¬c = 'Z' := fun he => h (he ▸ List.mem_cons_self c cs)
    simp [pyReplaceZ, hc, ih (fun hm => h (List.mem_cons_of_mem _ hm))]

/-- A trailing explicit `+00:00` parses as offset zero. -/
theorem offsetSuffix_zero (ts : List Char) :
    offsetSuffix (ts ++ "+00:00".data) = some 0 := by
  unfold offsetSuffix
  have hlen : (ts ++ "+00:00".data).length - 6 = ts.length := by simp
  rw [hlen, List.drop_left]
  rfl

/-- `fromisoformat` on a body followed by `+00:00` yields the aware
value: the body with offset zero. -/
theorem fromisoformat_zero (ts : List Char) :
    fromisoformat (ts ++ "+00:00".data) = ⟨ts, some 0⟩ := by
  unfold fromisoformat
  rw [offsetSuffix_zero]
  have hlen : (ts ++ "+00:00".data).length - 6 = ts.length := by simp
  rw [hlen, List.take_left]

/-- C9: a timestamp body suffixed with the shorthand `Z` marker parses —
through the `replace("Z", "+00:00")` rewrite of the normalizer — to
exactly the same aware value (same instant, offset zero) as the body
suffixed with the explicit `+00:00` marker; and every `published_date`
in both record collections returned by `fetch_data` is timezone-naive
(`tzinfo=None` is applied at lines 334 and 338-340). -/
theorem claim_C9 :
    (∀ ts : List Char, 'Z' ∉ ts →
      parsePublishedAt (String.mk (ts ++ ['Z'])) = ⟨ts, some 0⟩
      ∧ parsePublishedAt (String.mk (ts ++ "+00:00".data)) = ⟨ts, some 0⟩)
    ∧ (∀ (env : ApiEnv) (fuel maxc : Nat) (url : String) (r : FetchResult)
        (vs : List VideoRec) (cs : List CommentRec),
        fetch_data env fuel url maxc = some r →
        r.result = .ok (vs, cs) →
        (∀ v ∈ vs, v.published_date.tzMinutes = none)
        ∧ (∀ c ∈ cs, c.published_date.tzMinutes = none)) := by
  constructor
  · intro ts hz
    have h1 : pyReplaceZ (ts ++ ['Z']) = ts ++ "+00:00".data := by
      rw [pyReplaceZ_append, pyReplaceZ_id ts hz]
      rfl
    constructor
    · unfold parsePublishedAt
      rw [show (String.mk (ts ++ ['Z'])).data = ts ++ ['Z'] from rfl, h1]
      exact fromisoformat_zero ts
    · unfold parsePublishedAt
      rw [show (String.mk (ts ++ "+00:00".data)).data = ts ++ "+00:00".data
            from rfl,
        pyReplaceZ_append, pyReplaceZ_id ts hz,
        show pyReplaceZ "+00:00".data = "+00:00".data from rfl]
      exact fromisoformat_zero ts
  · intro env fuel maxc url r vs cs h hr
    unfold fetch_data at h
    repeat' split at h
    any_goals exact Option.noConfusion h
    all_goals injection h with h2
    all_goals subst h2
    any_goals exact Except.noConfusion hr
    rw [Except.ok.injEq, Prod.mk.injEq] at hr
    obtain ⟨hv, hc⟩ := hr
    subst hv
    subst hc
    constructor
    · intro v hv'
      obtain ⟨v0, _, rfl⟩ := List.mem_map.mp hv'
      rfl
    · intro c hc'
      obtain ⟨c0, _, rfl⟩ := List.mem_map.mp hc'
      rfl

/-- The result of the all-success `fetch_data` run. -/
def runOK : FetchResult :=
  (fetch_data envOK 1 "http://youtube.com/@handle" 10).getD
    ⟨.error (.valueError ""), [], []⟩

/-- The two record collections of `runOK`. -/
def pairOK : List VideoRec × List CommentRec :=
  match runOK.result with
  | .ok p => p
  | .error _ => ([], [])

/-- A placeholder video record (only used as a `headD` fallback). -/
def dfltVideo : VideoRec := ⟨"abcdefghijk", "", "", ⟨[], none⟩, 0, 0, 0, "", ""⟩

/-- Witness for C9: concrete timestamp equivalence, and the first video
record of a concrete successful run is timezone-naive. -/
theorem claim_C9_witness :
    parsePublishedAt (String.mk ("2024-01-02T03:04:05".data ++ ['Z'])) =
      ⟨"2024-01-02T03:04:05".data, some 0⟩
    ∧ (pairOK.1.headD dfltVideo).published_date.tzMinutes = none :=
  ⟨(claim_C9.1 "2024-01-02T03:04:05".data (by decide)).1,
   (claim_C9.2 envOK 1 10 "http://youtube.com/@handle" runOK pairOK.1 pairOK.2
      rfl rfl).1 (pairOK.1.headD dfltVideo) (by decide)⟩

/-- Splitting a string that does not contain the separator yields the
single group holding the whole string. -/
theorem pySplit_no_sep (l : List Char) (h : '@' ∉ l) :
    pySplit '@' l = [l] := by
  induction l with
  | nil => rfl
  | cons c cs ih =>
    have hc : ¬c = '@' := fun he => h (he ▸ List.mem_cons_self c cs)
    simp [pySplit, ih (fun hm => h (List.mem_cons_of_mem _ hm)), hc]

/-- C10: `channel_url.split("@")[-1]` (line 319) takes everything after
the last `@`; a URL with no `@` is its own handle — the split step
raises nothing — and when the channel input validates, the first
outbound request of `fetch_data` is the channel search for that whole
URL string. -/
theorem claim_C10 (url : String) (hnoAt : '@' ∉ url.data) :
    deriveHandle url = url
    ∧ ∀ (env : ApiEnv) (fuel maxc : Nat) (r : FetchResult),
        env.isHttpUrl url = true → url.length ≠ 0 →
        fetch_data env fuel url maxc = some r →
        r.trace.head? = some ⟨.channelSearch url, true⟩ := by
  have hd : deriveHandle url = url := by
    unfold deriveHandle
    rw [pySplit_no_sep url.data hnoAt]
    rfl
  refine ⟨hd, ?_⟩
  intro env fuel maxc r hurl hlen h
  unfold fetch_data at h
  rw [hd] at h
  rw [if_neg (fun hor => hor.elim
    (fun h1 => by rw [hurl] at h1; exact Bool.noConfusion h1)
    (fun h2 => hlen (by omega)))] at h
  rcases hg : get_channel_id env url with ⟨res, tr1⟩
  have htr1 : tr1 = [(⟨.channelSearch url, true⟩ : Event)] := by
    have h0 := get_channel_id_trace env url
    rw [hg] at h0
    exact h0
  rcases res with e | cid
  · simp only [hg] at h
    injection h with h2
    subst h2
    rw [show (FetchResult.mk (.error (PyErr.valueError "")) tr1 []).trace = tr1
          from rfl] at *
    rw [htr1]
    rfl
  · simp only [hg] at h
    rcases hv : get_videos env cid fuel with _ | ⟨rv, tr2⟩
    · rw [hv] at h
      exact Option.noConfusion h
    · rcases rv with e | vids
      · simp only [hv] at h
        injection h with h2
        subst h2
        show (tr1 ++ tr2).head? = _
        rw [htr1]
        rfl
      · simp only [hv] at h
        rcases hdet : get_video_details env vids with ⟨rd, tr3⟩
        rcases rd with e | raws
        · simp only [hdet] at h
          injection h with h2
          subst h2
          show (tr1 ++ tr2 ++ tr3).head? = _
          rw [htr1]
          rfl
        · simp only [hdet] at h
          rcases hval : raws.mapM validateVideo with e | videos
          · simp only [hval] at h
            injection h with h2
            subst h2
            show (tr1 ++ tr2 ++ tr3).head? = _
            rw [htr1]
            rfl
          · simp only [hval] at h
            rcases hcl : commentsLoop env maxc vids with ⟨rc, tr4, ws⟩
            rcases rc with e | craw
            · simp only [hcl] at h
              injection h with h2
              subst h2
              show (tr1 ++ tr2 ++ tr3 ++ tr4).head? = _
              rw [htr1]
              rfl
            · simp only [hcl] at h
              rcases hvc : craw.mapM validateComment with e | cok
              · simp only [hvc] at h
                injection h with h2
                subst h2
                show (tr1 ++ tr2 ++ tr3 ++ tr4).head? = _
                rw [htr1]
                rfl
              · simp only [hvc] at h
                injection h with h2
                subst h2
                show (tr1 ++ tr2 ++ tr3 ++ tr4).head? = _
                rw [htr1]
                rfl

/-- The result of a `fetch_data` run whose URL contains no `@`. -/
def runNoAt : FetchResult :=
  (fetch_data envOK 1 "youtubechannel" 10).getD
    ⟨.error (.valueError ""), [], []⟩

/-- Witness for C10: an `@`-free URL is used whole as the search query
of the first outbound request. -/
theorem claim_C10_witness :
    deriveHandle "youtubechannel" = "youtubechannel"
    ∧ runNoAt.trace.head? =
        some ⟨.channelSearch "youtubechannel", true⟩ :=
  ⟨(claim_C10 "youtubechannel" (by decide)).1,
   (claim_C10 "youtubechannel" (by decide)).2 envOK 1 10 runNoAt rfl
     (by decide) rfl⟩

end YTF
